import Mathlib

/-!
Verification development for the OpenTier vehicle_dashboard core: the PWM
waveform generator (led_pwm.rs), the actuator exclusive-execution manager
(led_manager.rs), and the telemetry ingestion pipeline (subscribers.rs and
the merge tasks plus the shared snapshot Model of main.rs), embedded
shallowly as Lean functions.
-/

set_option maxRecDepth 4000

namespace VehicleDashboard

/-! ### led_pwm.rs: constants and waveform operations -/

/-- led_pwm.rs: `const PERIOD_US: u64 = 10000` (10 ms, 100 Hz). -/
def PERIOD_US : Nat := 10000

/-- led_pwm.rs: `const PULSE_MIN_US: u64 = 0`. -/
def PULSE_MIN_US : Nat := 0

/-- led_pwm.rs: `const PULSE_MAX_US: u64 = PERIOD_US - 1000`. -/
def PULSE_MAX_US : Nat := PERIOD_US - 1000

/-- Rust inclusive range `(a..=b)` as the list `[a, a+1, ..., b]`
(empty when `b < a`). -/
def rangeIncl (a b : Nat) : List Nat := List.range' a (b + 1 - a)

/-- Fuel-indexed worker for `stepBy`; the fuel only guarantees structural
termination and is always at least the list length at the call sites. -/
def stepByAux (s : Nat) : Nat → List Nat → List Nat
  | 0, _ => []
  | _, [] => []
  | fuel + 1, x :: xs => x :: stepByAux s fuel (xs.drop (s - 1))

/-- Tail-recursive list length, used only to seed `stepByAux` with enough
fuel. -/
def lenAcc : List Nat → Nat → Nat
  | [], n => n
  | _ :: xs, n => lenAcc xs (n + 1)

/-- Rust `Iterator::step_by(s)` on a list: yield the first element, then
every s-th element after it. -/
def stepBy (s : Nat) (l : List Nat) : List Nat := stepByAux s (lenAcc l 0) l

/-- Pulse widths emitted by `fade_in` (led_pwm.rs):
`for pulse in (pulse_width_min..=pulse_width_max).step_by(100)`. -/
def fadeInPulses (pmin pmax : Nat) : List Nat := stepBy 100 (rangeIncl pmin pmax)

/-- Pulse widths emitted by `fade_out` (led_pwm.rs):
`for pulse in (pulse_width_min..=pulse_width_max).rev().step_by(100)`. -/
def fadeOutPulses (pmin pmax : Nat) : List Nat :=
  stepBy 100 (rangeIncl pmin pmax).reverse

/-- The `(period, pulse_width)` hardware writes attempted by `fade_in`,
one `set_pwm` call per step. -/
def fadeInWrites (period pmin pmax : Nat) : List (Nat × Nat) :=
  (fadeInPulses pmin pmax).map (fun p => (period, p))

/-- The `(period, pulse_width)` hardware writes attempted by `fade_out`. -/
def fadeOutWrites (period pmin pmax : Nat) : List (Nat × Nat) :=
  (fadeOutPulses pmin pmax).map (fun p => (period, p))

/-- led_pwm.rs `blinker_led(state)`: one write, `led_on(PERIOD_US, PULSE_MAX_US)`
when `state` is true, `led_off` (pulse width 0) otherwise. -/
def blinkerWrites (state : Bool) : List (Nat × Nat) :=
  if state then [(PERIOD_US, PULSE_MAX_US)] else [(PERIOD_US, 0)]

/-- led_pwm.rs `lock_light`: `fade_out(pin, PERIOD_US, PULSE_MIN_US, PULSE_MAX_US)`. -/
def lockLightWrites : List (Nat × Nat) := fadeOutWrites PERIOD_US PULSE_MIN_US PULSE_MAX_US

/-- led_pwm.rs `unlock_light`: `fade_in(pin, PERIOD_US, PULSE_MIN_US, PULSE_MAX_US)`. -/
def unlockLightWrites : List (Nat × Nat) := fadeInWrites PERIOD_US PULSE_MIN_US PULSE_MAX_US

/-- Execution of a list of hardware writes against a hardware behaviour `hw`
(`hw w = true` means the `set_pwm` call for `w` succeeds). A failing write
makes the `?` operator abort the remaining steps. Returns the writes actually
attempted (including the failing one) and whether the operation succeeded. -/
def runWrites (hw : Nat × Nat → Bool) : List (Nat × Nat) → List (Nat × Nat) × Bool
  | [] => ([], true)
  | w :: ws =>
    if hw w then
      let r := runWrites hw ws
      (w :: r.1, r.2)
    else ([w], false)

/-! ### led_manager.rs: the actuator manager

In the arm/aarch64 build each of `lock_light`, `unlock_light` and
`blinker_led` spawns a tokio task whose body is: take the `Mutex<bool>`
guard on `is_running`; if the flag is true, log "task is already running"
and return; else set it true, await the waveform operation (an `Err` is
logged, never propagated), set it false; drop the guard. The guard is held
for the entire body, across the awaited fade, so the whole body is a single
critical section on `is_running` and concurrent task bodies execute in
mutex-acquisition order, each atomically. -/

/-- Observable effects of one spawned actuator task body: the values written
to the `is_running` flag, the hardware writes attempted, and `some result` if
the waveform operation ran (`none` when the body dropped the request). -/
structure TaskOutcome where
  flagWrites : List Bool
  hwWrites : List (Nat × Nat)
  opOk : Option Bool

/-- One atomic execution of a spawned task body (arm build) whose waveform
operation attempts the writes `op`, starting from flag value `running`:
returns the flag value after the body plus its observable effects. -/
def taskBody (op : List (Nat × Nat)) (hw : Nat × Nat → Bool) (running : Bool) :
    Bool × TaskOutcome :=
  if running then (running, ⟨[], [], none⟩)
  else
    let r := runWrites hw op
    (false, ⟨[true, false], r.1, some r.2⟩)

/-- Serialized execution of a list of spawned task bodies in mutex-acquisition
order. Each body holds the mutex for its whole duration, so every concurrent
execution of these tasks equals this sequential composition for some order of
the list. -/
def runTasks (hw : Nat × Nat → Bool) : Bool → List (List (Nat × Nat)) → Bool × List TaskOutcome
  | running, [] => (running, [])
  | running, op :: ops =>
    let s := taskBody op hw running
    let rest := runTasks hw s.1 ops
    (rest.1, s.2 :: rest.2)

/-- Rust `Result<(), Box<dyn Error>>` as returned by the actuator methods. -/
inductive RResult
  | ok
  | err

/-- `LedManager::lock_light` in the arm/aarch64 build: the method spawns the
task and returns `Ok(())` immediately. The pair is the returned result and the
effects of the spawned task when it executes from flag state `running` against
hardware `hw`. -/
def lockLightCallArm (running : Bool) (hw : Nat × Nat → Bool) :
    RResult × List TaskOutcome :=
  (.ok, [(taskBody lockLightWrites hw running).2])

/-- `LedManager::unlock_light` in the arm/aarch64 build. -/
def unlockLightCallArm (running : Bool) (hw : Nat × Nat → Bool) :
    RResult × List TaskOutcome :=
  (.ok, [(taskBody unlockLightWrites hw running).2])

/-- `LedManager::blinker_led` in the arm/aarch64 build. -/
def blinkerLedCallArm (state : Bool) (running : Bool) (hw : Nat × Nat → Bool) :
    RResult × List TaskOutcome :=
  (.ok, [(taskBody (blinkerWrites state) hw running).2])

/-- `LedManager::lock_light` in the hardware-absent (non-arm) build: the whole
method body is `return Ok(())`; no task is spawned and the `LedManager` struct
has no `is_running` field at all in this build. -/
def lockLightCallHost : RResult × List TaskOutcome := (.ok, [])

/-- `LedManager::unlock_light` in the hardware-absent build. -/
def unlockLightCallHost : RResult × List TaskOutcome := (.ok, [])

/-- `LedManager::blinker_led` in the hardware-absent build. -/
def blinkerLedCallHost (_state : Bool) : RResult × List TaskOutcome := (.ok, [])

/-! ### subscribers.rs and main.rs: ingestion pipeline and snapshot model -/

/-- subscribers.rs `SubscriberTaskSpawner::spawn_task` receive loop, for the
sequence of payloads delivered while the channel stays open: each payload is
decoded with `T::decode`; a decoded record is forwarded into the channel in
order; a decode failure is logged and the loop continues with the next
payload. -/
def pumpLoop {β α : Type} (decode : β → Option α) : List β → List α
  | [] => []
  | b :: rest =>
    match decode b with
    | some m => m :: pumpLoop decode rest
    | none => pumpLoop decode rest

/-- main.rs merge-task loop at the level of one slot: drain the queue in FIFO
order, each received record replacing the slot value wholesale with
`some record`. All five merge tasks are instances of this loop on their own
slot. -/
def mergeLoop {α : Type} : List α → Option α → Option α
  | [], slot => slot
  | m :: rest, _ => mergeLoop rest (some m)

/-- main.rs `Model`: one `Option` slot per telemetry kind. The record types
are generated protobuf types, kept abstract here as type parameters. -/
structure Model (B L E S T : Type) where
  battery_data : Option B
  lock_state : Option L
  exterior : Option E
  speed : Option S
  trip_data : Option T

/-- The `Model` as initialized in main: every slot `None`. -/
def initModel {B L E S T : Type} : Model B L E S T := ⟨none, none, none, none, none⟩

/-- One write by one of the five merge tasks of main.rs. -/
inductive MergeWrite (B L E S T : Type)
  | battery (x : B)
  | lockState (x : L)
  | exterior (x : E)
  | speed (x : S)
  | tripData (x : T)

/-- The store a merge task performs for one received record:
`model.slot = Some(record)`, replacing the previous value wholesale. -/
def applyWrite {B L E S T : Type} (m : Model B L E S T) :
    MergeWrite B L E S T → Model B L E S T
  | .battery x => { m with battery_data := some x }
  | .lockState x => { m with lock_state := some x }
  | .exterior x => { m with exterior := some x }
  | .speed x => { m with speed := some x }
  | .tripData x => { m with trip_data := some x }

/-- A finite interleaving of merge-task writes applied to the model. -/
def applyWrites {B L E S T : Type} (m : Model B L E S T)
    (ws : List (MergeWrite B L E S T)) : Model B L E S T :=
  ws.foldl applyWrite m

/-- Whether the slot targeted by a merge write is populated in model `m`. -/
def targetSlotSome {B L E S T : Type} (m : Model B L E S T) :
    MergeWrite B L E S T → Bool
  | .battery _ => m.battery_data.isSome
  | .lockState _ => m.lock_state.isSome
  | .exterior _ => m.exterior.isSome
  | .speed _ => m.speed.isSome
  | .tripData _ => m.trip_data.isSome

/-- The battery merge task of main.rs: drains the battery queue, each record
written wholesale into the battery slot of the shared model. -/
def batteryMergeTask {B L E S T : Type} : List B → Model B L E S T → Model B L E S T
  | [], m => m
  | b :: rest, m => batteryMergeTask rest { m with battery_data := some b }

/-! ### Helper lemmas about `stepBy` over ranges -/

theorem stepByAux_nil (s f : Nat) : stepByAux s f [] = [] := by
  cases f <;> rfl

theorem stepByAux_congr (s : Nat) :
    ∀ (f₁ f₂ : Nat) (l : List Nat), l.length ≤ f₁ → l.length ≤ f₂ →
      stepByAux s f₁ l = stepByAux s f₂ l := by
  intro f₁
  induction f₁ with
  | zero =>
    intro f₂ l h₁ _
    have : l = [] := List.eq_nil_of_length_eq_zero (Nat.le_zero.mp h₁)
    subst this
    simp [stepByAux_nil]
  | succ g ih =>
    intro f₂ l h₁ h₂
    cases l with
    | nil => simp [stepByAux_nil]
    | cons x xs =>
      cases f₂ with
      | zero => simp at h₂
      | succ h =>
        simp only [stepByAux]
        have hlen : (xs.drop (s - 1)).length ≤ g := by
          simp only [List.length_drop]
          simp only [List.length_cons] at h₁
          omega
        have hlen' : (xs.drop (s - 1)).length ≤ h := by
          simp only [List.length_drop]
          simp only [List.length_cons] at h₂
          omega
        rw [ih h (xs.drop (s - 1)) hlen hlen']

theorem lenAcc_eq : ∀ (l : List Nat) (n : Nat), lenAcc l n = l.length + n := by
  intro l
  induction l with
  | nil => intro n; simp [lenAcc]
  | cons x xs ih => intro n; simp [lenAcc, ih]; omega

theorem stepBy_eq_aux (s : Nat) (l : List Nat) :
    stepBy s l = stepByAux s l.length l := by
  rw [stepBy, lenAcc_eq, Nat.add_zero]

theorem drop_range' (a n k : Nat) :
    (List.range' a n).drop k = List.range' (a + k) (n - k) := by
  by_cases h : k ≤ n
  · have hsplit : List.range' a k ++ List.range' (a + k) (n - k) = List.range' a n := by
      rw [List.range'_append_1]
      congr 1
      omega
    rw [← hsplit, List.drop_left' (by simp)]
  · rw [List.drop_eq_nil_of_le (by simp only [List.length_range']; omega)]
    have h0 : n - k = 0 := by omega
    rw [h0, List.range'_zero]

theorem reverse_drop_range' (a n k : Nat) (h : k ≤ n) :
    ((List.range' a n).reverse).drop k = (List.range' a (n - k)).reverse := by
  have hsplit : List.range' a (n - k) ++ List.range' (a + (n - k)) k = List.range' a n := by
    rw [List.range'_append_1]
    congr 1
    omega
  rw [← hsplit, List.reverse_append, List.drop_left' (by simp)]

theorem stepBy_range'_cons (s a n : Nat) (hs : 0 < s) (hn : 0 < n) :
    stepBy s (List.range' a n) = a :: stepBy s (List.range' (a + s) (n - s)) := by
  have hsplit : List.range' a n = a :: List.range' (a + 1) (n - 1) := by
    conv_lhs => rw [show n = (n - 1) + 1 by omega]
    rw [List.range'_succ]
  rw [hsplit, stepBy_eq_aux]
  simp only [List.length_cons, List.length_range']
  simp only [stepByAux]
  congr 1
  rw [drop_range']
  rw [show a + 1 + (s - 1) = a + s by omega, show n - 1 - (s - 1) = n - s by omega]
  rw [stepBy_eq_aux, List.length_range']
  exact stepByAux_congr s (n - 1) (n - s) (List.range' (a + s) (n - s))
    (by simp only [List.length_range']; omega) (by simp only [List.length_range']; omega)

theorem stepBy_revRange'_cons (s a n : Nat) (hs : 0 < s) (hsn : s ≤ n) :
    stepBy s (List.range' a n).reverse =
      (a + n - 1) :: stepBy s (List.range' a (n - s)).reverse := by
  have hsplit : List.range' a n = List.range' a (n - 1) ++ [a + (n - 1)] := by
    conv_lhs => rw [show n = (n - 1) + 1 by omega]
    rw [List.range'_1_concat]
  rw [hsplit, List.reverse_append]
  simp only [List.reverse_cons, List.reverse_nil, List.nil_append, List.singleton_append]
  rw [stepBy_eq_aux]
  simp only [List.length_cons, List.length_reverse, List.length_range']
  simp only [stepByAux]
  rw [show a + (n - 1) = a + n - 1 by omega]
  congr 1
  rw [reverse_drop_range' a (n - 1) (s - 1) (by omega)]
  rw [show n - 1 - (s - 1) = n - s by omega]
  rw [stepBy_eq_aux]
  simp only [List.length_reverse, List.length_range']
  exact stepByAux_congr s (n - 1) (n - s) ((List.range' a (n - s)).reverse)
    (by simp only [List.length_reverse, List.length_range']; omega)
    (by simp only [List.length_reverse, List.length_range']; omega)

theorem stepBy_nil (s : Nat) : stepBy s [] = [] := rfl

theorem stepBy_revRange'_single (s a n : Nat) (hn : 0 < n) (hns : n ≤ s) :
    stepBy s (List.range' a n).reverse = [a + n - 1] := by
  have hsplit : List.range' a n = List.range' a (n - 1) ++ [a + (n - 1)] := by
    conv_lhs => rw [show n = (n - 1) + 1 by omega]
    rw [List.range'_1_concat]
  rw [hsplit, List.reverse_append]
  simp only [List.reverse_cons, List.reverse_nil, List.nil_append, List.singleton_append]
  rw [stepBy_eq_aux]
  simp only [List.length_cons, List.length_reverse, List.length_range']
  simp only [stepByAux]
  rw [show a + (n - 1) = a + n - 1 by omega]
  congr 1
  rw [List.drop_eq_nil_of_le
    (by simp only [List.length_reverse, List.length_range']; omega)]
  exact stepByAux_nil s (n - 1)

theorem stepByAux_subset (s : Nat) :
    ∀ (f : Nat) (l : List Nat), stepByAux s f l ⊆ l := by
  intro f
  induction f with
  | zero =>
    intro l
    have h0 : stepByAux s 0 l = [] := by cases l <;> rfl
    rw [h0]
    exact List.nil_subset l
  | succ g ih =>
    intro l
    cases l with
    | nil => simp [stepByAux_nil]
    | cons x xs =>
      simp only [stepByAux]
      intro y hy
      rcases List.mem_cons.mp hy with hy | hy
      · exact hy ▸ List.mem_cons_self x xs
      · exact List.mem_cons_of_mem x (List.drop_subset _ xs (ih _ hy))

theorem stepBy_subset (s : Nat) (l : List Nat) : stepBy s l ⊆ l := by
  rw [stepBy]
  exact stepByAux_subset s (lenAcc l 0) l

theorem mem_rangeIncl {a b x : Nat} (h : x ∈ rangeIncl a b) : a ≤ x ∧ x ≤ b := by
  rw [rangeIncl, List.mem_range'] at h
  obtain ⟨i, hi, rfl⟩ := h
  omega

theorem fadeIn_cons (a b : Nat) (hab : a ≤ b) :
    fadeInPulses a b = a :: fadeInPulses (a + 100) b := by
  rw [fadeInPulses, fadeInPulses, rangeIncl, rangeIncl]
  rw [stepBy_range'_cons 100 a (b + 1 - a) (by omega) (by omega)]
  rw [show b + 1 - a - 100 = b + 1 - (a + 100) by omega]

theorem fadeOut_cons (a b : Nat) (h : a + 100 ≤ b) :
    fadeOutPulses a b = b :: fadeOutPulses a (b - 100) := by
  rw [fadeOutPulses, fadeOutPulses, rangeIncl, rangeIncl]
  rw [stepBy_revRange'_cons 100 a (b + 1 - a) (by omega) (by omega)]
  rw [show a + (b + 1 - a) - 1 = b by omega,
    show b + 1 - a - 100 = b - 100 + 1 - a by omega]

theorem fadeOut_single (a b : Nat) (hab : a ≤ b) (hs : b - a < 100) :
    fadeOutPulses a b = [b] := by
  rw [fadeOutPulses, rangeIncl]
  rw [stepBy_revRange'_single 100 a (b + 1 - a) (by omega) (by omega)]
  rw [show a + (b + 1 - a) - 1 = b by omega]

theorem fadeInFacts :
    ∀ (fuel a b : Nat), b - a ≤ fuel → a ≤ b → (b - a) % 100 = 0 →
      (fadeInPulses a b).head? = some a ∧
      (fadeInPulses a b).getLast? = some b ∧
      List.Pairwise (· < ·) (fadeInPulses a b) := by
  intro fuel
  induction fuel with
  | zero =>
    intro a b hf hab hmod
    have hba : b = a := by omega
    rw [hba, fadeIn_cons a a (le_refl a)]
    rw [show fadeInPulses (a + 100) a = [] from ?_]
    · simp
    · rw [fadeInPulses, rangeIncl, show a + 1 - (a + 100) = 0 by omega,
        List.range'_zero, stepBy_nil]
  | succ f ih =>
    intro a b hf hab hmod
    by_cases hsmall : b - a < 100
    · have hba : b = a := by omega
      rw [hba, fadeIn_cons a a (le_refl a)]
      rw [show fadeInPulses (a + 100) a = [] from ?_]
      · simp
      · rw [fadeInPulses, rangeIncl, show a + 1 - (a + 100) = 0 by omega,
          List.range'_zero, stepBy_nil]
    · have h1 : a + 100 ≤ b := by omega
      obtain ⟨ihh, ihl, ihc⟩ := ih (a + 100) b (by omega) (by omega) (by omega)
      rw [fadeIn_cons a b hab]
      refine ⟨by simp, ?_, ?_⟩
      · cases hl : fadeInPulses (a + 100) b with
        | nil => rw [hl] at ihh; simp at ihh
        | cons x t =>
          rw [hl] at ihl
          rw [List.getLast?_cons_cons]
          exact ihl
      · refine List.Pairwise.cons ?_ ihc
        intro y hy
        rw [fadeInPulses] at hy
        have hmem := (mem_rangeIncl (stepBy_subset 100 _ hy)).1
        omega

theorem fadeOutFacts :
    ∀ (fuel a b : Nat), b - a ≤ fuel → a ≤ b → (b - a) % 100 = 0 →
      (fadeOutPulses a b).head? = some b ∧
      (fadeOutPulses a b).getLast? = some a ∧
      List.Pairwise (· > ·) (fadeOutPulses a b) := by
  intro fuel
  induction fuel with
  | zero =>
    intro a b hf hab hmod
    have hba : b = a := by omega
    rw [hba, fadeOut_single a a (le_refl a) (by omega)]
    simp
  | succ f ih =>
    intro a b hf hab hmod
    by_cases hsmall : b - a < 100
    · have hba : b = a := by omega
      rw [hba, fadeOut_single a a (le_refl a) (by omega)]
      simp
    · have h1 : a + 100 ≤ b := by omega
      obtain ⟨ihh, ihl, ihc⟩ := ih a (b - 100) (by omega) (by omega) (by omega)
      rw [fadeOut_cons a b h1]
      refine ⟨by simp, ?_, ?_⟩
      · cases hl : fadeOutPulses a (b - 100) with
        | nil => rw [hl] at ihh; simp at ihh
        | cons x t =>
          rw [hl] at ihl
          rw [List.getLast?_cons_cons]
          exact ihl
      · refine List.Pairwise.cons ?_ ihc
        intro y hy
        rw [fadeOutPulses] at hy
        have hrev := stepBy_subset 100 _ hy
        rw [List.mem_reverse] at hrev
        have hmem := (mem_rangeIncl hrev).2
        omega

/-! ### Helper lemmas about the actuator manager and the pipeline -/

theorem runWrites_all_ok (op : List (Nat × Nat)) :
    runWrites (fun _ => true) op = (op, true) := by
  induction op with
  | nil => rfl
  | cons w ws ih => simp [runWrites, ih]

theorem runWrites_fail_first (hw : Nat × Nat → Bool) :
    ∀ (pre : List (Nat × Nat)) (w : Nat × Nat) (post : List (Nat × Nat)),
      (∀ u ∈ pre, hw u = true) → hw w = false →
      runWrites hw (pre ++ w :: post) = (pre ++ [w], false) := by
  intro pre
  induction pre with
  | nil =>
    intro w post _ hwf
    simp [runWrites, hwf]
  | cons u us ih =>
    intro w post hpre hwf
    have hu : hw u = true := hpre u (by simp)
    have hrest := ih w post (fun v hv => hpre v (by simp [hv])) hwf
    simp [runWrites, hu, hrest]

theorem applyWrite_keeps {B L E S T : Type} (m : Model B L E S T)
    (w : MergeWrite B L E S T) :
    (m.battery_data.isSome = true → (applyWrite m w).battery_data.isSome = true) ∧
    (m.lock_state.isSome = true → (applyWrite m w).lock_state.isSome = true) ∧
    (m.exterior.isSome = true → (applyWrite m w).exterior.isSome = true) ∧
    (m.speed.isSome = true → (applyWrite m w).speed.isSome = true) ∧
    (m.trip_data.isSome = true → (applyWrite m w).trip_data.isSome = true) := by
  cases w <;> simp [applyWrite]

theorem applyWrites_keeps {B L E S T : Type} :
    ∀ (ws : List (MergeWrite B L E S T)) (m : Model B L E S T),
      (m.battery_data.isSome = true → (applyWrites m ws).battery_data.isSome = true) ∧
      (m.lock_state.isSome = true → (applyWrites m ws).lock_state.isSome = true) ∧
      (m.exterior.isSome = true → (applyWrites m ws).exterior.isSome = true) ∧
      (m.speed.isSome = true → (applyWrites m ws).speed.isSome = true) ∧
      (m.trip_data.isSome = true → (applyWrites m ws).trip_data.isSome = true) := by
  intro ws
  induction ws with
  | nil =>
    intro m
    exact ⟨id, id, id, id, id⟩
  | cons w rest ih =>
    intro m
    obtain ⟨s1, s2, s3, s4, s5⟩ := applyWrite_keeps m w
    obtain ⟨i1, i2, i3, i4, i5⟩ := ih (applyWrite m w)
    exact ⟨fun h => i1 (s1 h), fun h => i2 (s2 h), fun h => i3 (s3 h),
      fun h => i4 (s4 h), fun h => i5 (s5 h)⟩

/-! ### Claim theorems -/

/-- Claim C1 (what the code actually does at the claim's scenario): two
unlock requests whose spawned tasks contend — the second arriving while the
first fade-in is still executing. Because the tokio mutex guard on
`is_running` is held across the entire awaited fade, no task can ever
observe `is_running = true`: the second task waits on the mutex and then
runs its own full fade-in. Both outcomes show a full run (`opOk = some`,
flag written true then false, all writes emitted); two fade-in sequences
execute, not one, and neither request is dropped. -/
theorem two_unlock_requests_run_two_fades :
    (runTasks (fun _ => true) false [unlockLightWrites, unlockLightWrites]).2 =
      [⟨[true, false], unlockLightWrites, some true⟩,
       ⟨[true, false], unlockLightWrites, some true⟩] ∧
    ((runTasks (fun _ => true) false [unlockLightWrites, unlockLightWrites]).2.countP
      (fun o => o.opOk.isSome)) = 2 := by
  have hbody : taskBody unlockLightWrites (fun _ => true) false =
      (false, ⟨[true, false], unlockLightWrites, some true⟩) := by
    simp [taskBody, runWrites_all_ok]
  constructor
  · simp [runTasks, hbody]
  · simp [runTasks, hbody, List.countP_cons]

/-- Claim C2 counterexample: one `lock_light` call from Idle on working
hardware. In the arm build the spawned task writes the Run Flag (true, then
false); in the non-arm build nothing is spawned and no Run Flag exists, so
the Run Flag transition histories of the two builds differ — the builds do
not perform the same Run Flag state transitions. -/
theorem arm_host_flag_transitions_differ :
    (lockLightCallArm false (fun _ => true)).2.map (fun o => o.flagWrites) ≠
      lockLightCallHost.2.map (fun o => o.flagWrites) := by
  simp [lockLightCallArm, lockLightCallHost, taskBody]

/-- Claim C2 (amended): the two build variants agree on what every actuator
method returns to the caller (always Ok), for every flag state, hardware
behaviour and blink phase; they do not otherwise share logic — the
hardware-absent build has no Run Flag and performs no waveform operation. -/
theorem arm_host_results_agree (running : Bool) (hw : Nat × Nat → Bool)
    (state : Bool) :
    (lockLightCallArm running hw).1 = lockLightCallHost.1 ∧
    (unlockLightCallArm running hw).1 = unlockLightCallHost.1 ∧
    (blinkerLedCallArm state running hw).1 = (blinkerLedCallHost state).1 :=
  ⟨rfl, rfl, rfl⟩

/-- Claim C3: with the fixed parameters (period 10000 µs, pulse range
[0, 9000], step 100), fade_in emits a strictly increasing pulse sequence
starting at min and ending exactly at max, fade_out a strictly decreasing
one from max to min, and running fade_in then fade_out leaves the last
written duty cycle at min while fade_out then fade_in leaves it at max. -/
theorem fade_monotone_roundtrip :
    List.Pairwise (· < ·) (fadeInPulses PULSE_MIN_US PULSE_MAX_US) ∧
    (fadeInPulses PULSE_MIN_US PULSE_MAX_US).head? = some PULSE_MIN_US ∧
    (fadeInPulses PULSE_MIN_US PULSE_MAX_US).getLast? = some PULSE_MAX_US ∧
    List.Pairwise (· > ·) (fadeOutPulses PULSE_MIN_US PULSE_MAX_US) ∧
    (fadeOutPulses PULSE_MIN_US PULSE_MAX_US).head? = some PULSE_MAX_US ∧
    (fadeOutPulses PULSE_MIN_US PULSE_MAX_US).getLast? = some PULSE_MIN_US ∧
    (fadeInPulses PULSE_MIN_US PULSE_MAX_US ++
      fadeOutPulses PULSE_MIN_US PULSE_MAX_US).getLast? = some PULSE_MIN_US ∧
    (fadeOutPulses PULSE_MIN_US PULSE_MAX_US ++
      fadeInPulses PULSE_MIN_US PULSE_MAX_US).getLast? = some PULSE_MAX_US := by
  have e0 : PULSE_MIN_US = 0 := rfl
  have e9 : PULSE_MAX_US = 9000 := rfl
  rw [e0, e9]
  obtain ⟨ih1, il1, ic1⟩ := fadeInFacts 9000 0 9000 (by omega) (by omega) (by omega)
  obtain ⟨oh1, ol1, oc1⟩ := fadeOutFacts 9000 0 9000 (by omega) (by omega) (by omega)
  have hone : fadeOutPulses 0 9000 ≠ [] := by
    intro h; rw [h] at ol1; simp at ol1
  have hine : fadeInPulses 0 9000 ≠ [] := by
    intro h; rw [h] at il1; simp at il1
  refine ⟨ic1, ih1, il1, oc1, oh1, ol1, ?_, ?_⟩
  · rw [List.getLast?_append_of_ne_nil _ hone]; exact ol1
  · rw [List.getLast?_append_of_ne_nil _ hine]; exact il1

/-- Claim C4: after a merge task has drained a nonempty FIFO queue of
successfully decoded records, its Snapshot Model slot holds `some` of the
last record in arrival order — each write replaces the slot wholesale with
no transformation. -/
theorem merge_final_slot_is_last {α : Type} (msgs : List α) (slot : Option α)
    (h : msgs ≠ []) : mergeLoop msgs slot = some (msgs.getLast h) := by
  induction msgs generalizing slot with
  | nil => exact absurd rfl h
  | cons m rest ih =>
    cases rest with
    | nil => simp [mergeLoop]
    | cons r rs =>
      have step : mergeLoop (m :: r :: rs) slot = mergeLoop (r :: rs) (some m) := rfl
      rw [step, ih (some m) (by simp)]
      rfl

/-- Claim C4 witness. -/
theorem merge_final_slot_is_last_witness :
    mergeLoop [1, 2, 3] (none : Option Nat) = some 3 :=
  merge_final_slot_is_last [1, 2, 3] none (by simp)

/-- Claim C5: a decode failure is dropped and the pump continues: the
records a pump forwards for a payload stream containing a failing payload
are exactly those forwarded for the surrounding stream, so the failure
never terminates the loop and every subsequent valid message is still
decoded and forwarded in order. -/
theorem pump_survives_decode_failure {β α : Type} (decode : β → Option α)
    (pre post : List β) (bad : β) (h : decode bad = none) :
    pumpLoop decode (pre ++ bad :: post) =
      pumpLoop decode pre ++ pumpLoop decode post := by
  induction pre with
  | nil => simp [pumpLoop, h]
  | cons b bs ih =>
    cases hd : decode b <;> simp [pumpLoop, hd, ih]

/-- Claim C5 witness. -/
theorem pump_survives_decode_failure_witness :
    pumpLoop (fun n : Nat => if n = 0 then none else some n) ([1] ++ 0 :: [2]) =
      pumpLoop (fun n : Nat => if n = 0 then none else some n) [1] ++
        pumpLoop (fun n : Nat => if n = 0 then none else some n) [2] :=
  pump_survives_decode_failure (fun n : Nat => if n = 0 then none else some n)
    [1] [2] 0 (by simp)

/-- Claim C6: a payload that fails to decode produces no write at all: the
whole Snapshot Model — in particular the battery slot — is unchanged after
the pump and the battery merge task have processed that payload, whatever
the model held before. -/
theorem decode_failure_leaves_model_unchanged {B L E S T : Type}
    (decode : List Nat → Option B) (bad : List Nat) (h : decode bad = none)
    (m : Model B L E S T) :
    batteryMergeTask (pumpLoop decode [bad]) m = m := by
  simp [pumpLoop, h, batteryMergeTask]

/-- Claim C6 witness: a truncated 3-byte battery payload rejected by the
decoder leaves a populated battery slot exactly as it was. -/
theorem decode_failure_leaves_model_unchanged_witness :
    batteryMergeTask
        (pumpLoop (fun b : List Nat => if b.length < 4 then none else some b.length)
          [[1, 2, 3]])
        (⟨some 7, none, none, none, none⟩ : Model Nat Nat Nat Nat Nat) =
      (⟨some 7, none, none, none, none⟩ : Model Nat Nat Nat Nat Nat) :=
  decode_failure_leaves_model_unchanged
    (fun b : List Nat => if b.length < 4 then none else some b.length)
    [1, 2, 3] (by simp) ⟨some 7, none, none, none, none⟩

/-- Claim C7: if a hardware write fails at some step of a fade, the writes
attempted are exactly those up to and including the failing one (no further
step is emitted), the failure is surfaced to the task body as the operation
result (where it is logged), the Run Flag is nonetheless cleared, and a
later request arriving in the restored Idle state is not dropped — it runs
its own operation. -/
theorem write_failure_aborts_and_clears_flag (hw : Nat × Nat → Bool)
    (pre : List (Nat × Nat)) (w : Nat × Nat) (post : List (Nat × Nat))
    (hpre : ∀ u ∈ pre, hw u = true) (hfail : hw w = false) :
    (runWrites hw (pre ++ w :: post)).1 = pre ++ [w] ∧
    (runWrites hw (pre ++ w :: post)).2 = false ∧
    (taskBody (pre ++ w :: post) hw false).1 = false ∧
    (taskBody (pre ++ w :: post) hw false).2.opOk = some false ∧
    (∀ (op2 : List (Nat × Nat)) (hw2 : Nat × Nat → Bool),
      (taskBody op2 hw2 (taskBody (pre ++ w :: post) hw false).1).2.opOk =
        some (runWrites hw2 op2).2) := by
  have hrw := runWrites_fail_first hw pre w post hpre hfail
  refine ⟨by rw [hrw], by rw [hrw], by simp [taskBody], ?_, ?_⟩
  · simp [taskBody, hrw]
  · intro op2 hw2
    simp [taskBody]

/-- Claim C7 witness: hardware failing at pulse width 200 during a 4-step
fade attempts exactly the first three writes. -/
theorem write_failure_aborts_and_clears_flag_witness :
    (runWrites (fun u => decide (u.2 < 200))
      ([(10000, 0), (10000, 100)] ++ (10000, 200) :: [(10000, 300)])).1 =
      [(10000, 0), (10000, 100)] ++ [(10000, 200)] :=
  (write_failure_aborts_and_clears_flag (fun u => decide (u.2 < 200))
    [(10000, 0), (10000, 100)] (10000, 200) [(10000, 300)]
    (by decide) (by decide)).1

/-- Claim C8: every call to lock_light, unlock_light or blinker_led returns
Ok to the caller — in both build variants, whatever the Run Flag state and
whatever the hardware does during the spawned operation; a driver error is
only logged inside the spawned task, never propagated to the caller. -/
theorem actuator_calls_always_ok (running : Bool) (hw : Nat × Nat → Bool)
    (state : Bool) :
    (lockLightCallArm running hw).1 = RResult.ok ∧
    (unlockLightCallArm running hw).1 = RResult.ok ∧
    (blinkerLedCallArm state running hw).1 = RResult.ok ∧
    lockLightCallHost.1 = RResult.ok ∧
    unlockLightCallHost.1 = RResult.ok ∧
    (blinkerLedCallHost state).1 = RResult.ok :=
  ⟨rfl, rfl, rfl, rfl, rfl, rfl⟩

/-- Claim C9: every hardware write of every waveform operation (blinker_led
in either phase, fade_in, fade_out) carries period `PERIOD_US = 10000` µs
and a pulse width within [0, PULSE_MAX_US] = [0, period − 1000], hence
strictly below the period. -/
theorem pwm_writes_within_bounds (w : Nat × Nat)
    (h : w ∈ blinkerWrites true ∨ w ∈ blinkerWrites false ∨
         w ∈ unlockLightWrites ∨ w ∈ lockLightWrites) :
    w.1 = PERIOD_US ∧ w.2 ≤ PULSE_MAX_US ∧ w.2 < PERIOD_US := by
  rcases h with h | h | h | h
  · simp [blinkerWrites] at h
    subst h
    exact ⟨rfl, le_refl _, by norm_num [PULSE_MAX_US, PERIOD_US]⟩
  · simp [blinkerWrites] at h
    subst h
    exact ⟨rfl, by norm_num [PULSE_MAX_US, PERIOD_US], by norm_num [PERIOD_US]⟩
  · rw [unlockLightWrites, fadeInWrites] at h
    obtain ⟨p, hp, rfl⟩ := List.mem_map.mp h
    rw [fadeInPulses] at hp
    have hb := mem_rangeIncl (stepBy_subset 100 _ hp)
    have e9 : PULSE_MAX_US = 9000 := rfl
    have eP : PERIOD_US = 10000 := rfl
    refine ⟨rfl, ?_, ?_⟩ <;> simp only [e9, eP] at hb ⊢ <;> omega
  · rw [lockLightWrites, fadeOutWrites] at h
    obtain ⟨p, hp, rfl⟩ := List.mem_map.mp h
    rw [fadeOutPulses] at hp
    have hrev := stepBy_subset 100 _ hp
    rw [List.mem_reverse] at hrev
    have hb := mem_rangeIncl hrev
    have e9 : PULSE_MAX_US = 9000 := rfl
    have eP : PERIOD_US = 10000 := rfl
    refine ⟨rfl, ?_, ?_⟩ <;> simp only [e9, eP] at hb ⊢ <;> omega

/-- Claim C9 witness. -/
theorem pwm_writes_within_bounds_witness :
    (10000, 9000).1 = PERIOD_US ∧ (10000, 9000).2 ≤ PULSE_MAX_US ∧
      (10000, 9000).2 < PERIOD_US :=
  pwm_writes_within_bounds (10000, 9000) (Or.inl (by decide))

/-- Claim C10: every Snapshot Model slot starts as None; a merge-task write
always stores `some record` into its target slot; and no core operation
resets a populated slot, so once populated a slot stays populated under any
further interleaving of merge writes. -/
theorem model_slots_start_none_and_stay_populated {B L E S T : Type}
    (ws : List (MergeWrite B L E S T)) (m : Model B L E S T)
    (w : MergeWrite B L E S T) :
    ((initModel : Model B L E S T).battery_data = none ∧
      (initModel : Model B L E S T).lock_state = none ∧
      (initModel : Model B L E S T).exterior = none ∧
      (initModel : Model B L E S T).speed = none ∧
      (initModel : Model B L E S T).trip_data = none) ∧
    targetSlotSome (applyWrite m w) w = true ∧
    (m.battery_data.isSome = true → (applyWrites m ws).battery_data.isSome = true) ∧
    (m.lock_state.isSome = true → (applyWrites m ws).lock_state.isSome = true) ∧
    (m.exterior.isSome = true → (applyWrites m ws).exterior.isSome = true) ∧
    (m.speed.isSome = true → (applyWrites m ws).speed.isSome = true) ∧
    (m.trip_data.isSome = true → (applyWrites m ws).trip_data.isSome = true) := by
  obtain ⟨k1, k2, k3, k4, k5⟩ := applyWrites_keeps ws m
  refine ⟨⟨rfl, rfl, rfl, rfl, rfl⟩, ?_, k1, k2, k3, k4, k5⟩
  cases w <;> simp [applyWrite, targetSlotSome]

/-- Claim C10 witness: a populated battery slot is still populated after an
unrelated merge write. -/
theorem model_slots_start_none_and_stay_populated_witness :
    (applyWrites (⟨some 1, none, none, none, none⟩ : Model Nat Nat Nat Nat Nat)
      [MergeWrite.speed 5]).battery_data.isSome = true :=
  (model_slots_start_none_and_stay_populated [MergeWrite.speed 5]
    (⟨some 1, none, none, none, none⟩ : Model Nat Nat Nat Nat Nat)
    (MergeWrite.battery 0)).2.2.1 rfl

end VehicleDashboard
